import Mathlib

/-!
Verification of the simply-feed-mcp ingestion-and-storage engine.

Shallow embedding of:
- the chunked table-storage codec (azure-table-read-writer.ts: createTableEntity,
  deserializeObject, writeObject);
- the feed manager (simply-feed-manager.ts: getFeed, getFeeds, queryFeeds, getItem,
  getItemsFromFeed, getRecentItems, queryItems, refreshFeed);
- the feed parser (feed-reader.ts: fetchItemsAndUpdateFeed, extractFeedItems);
- the worker cycle (simply-feed-worker.ts: processor).

JavaScript strings are modelled as Lean String values with hand-rolled helpers
(trim, split, includes) over the character list, mirroring ECMAScript semantics
on the relevant code paths.  External library calls (JSON codec, HTML-to-Markdown
conversion, markdown link scanning, the LLM completion, UUID generation, Date.now)
are passed in as explicit function parameters.
-/

set_option autoImplicit false

/-! ## JavaScript string and array helpers -/

/-- Characters stripped by String.prototype.trim, modelled by Char.isWhitespace. -/
def jsTrimChars (l : List Char) : List Char :=
  ((l.dropWhile Char.isWhitespace).reverse.dropWhile Char.isWhitespace).reverse

/-- JS String.prototype.trim. -/
def jsTrim (s : String) : String :=
  ⟨jsTrimChars s.data⟩

/-- Split a character list at every occurrence of a separator character,
keeping empty fragments, as JS String.prototype.split with a 1-char separator. -/
def splitAtChar (sep : Char) : List Char → List Char → List (List Char)
  | [], acc => [acc.reverse]
  | c :: cs, acc =>
    if c = sep then acc.reverse :: splitAtChar sep cs [] else splitAtChar sep cs (c :: acc)

/-- JS query.split(" ") : split on the space character only. -/
def jsSplitSpace (s : String) : List String :=
  (splitAtChar ' ' s.data []).map (fun l => ⟨l⟩)

/-- Split a character list at every character satisfying a predicate
(used only to state the spec's notion of splitting on whitespace). -/
def splitAtPred (p : Char → Bool) : List Char → List Char → List (List Char)
  | [], acc => [acc.reverse]
  | c :: cs, acc =>
    if p c then acc.reverse :: splitAtPred p cs [] else splitAtPred p cs (c :: acc)

/-- Modelled from the spec: the tokens obtained by splitting a query on
whitespace and dropping empties (spec section 4.2, queryFeeds). -/
def whitespaceTokens (s : String) : List String :=
  ((splitAtPred Char.isWhitespace s.data []).map (fun l => (⟨l⟩ : String))).filter (fun t => t ≠ "")

/-- Does t occur as a contiguous substring of s, scanning suffixes (JS includes). -/
def charsContain (s t : List Char) : Bool :=
  match s with
  | [] => t.isEmpty
  | _ :: rest => t.isPrefixOf s || charsContain rest t

/-- JS String.prototype.includes. -/
def jsIncludes (s t : String) : Bool :=
  charsContain s.data t.data

/-- JS String.prototype.startsWith. -/
def jsStartsWith (s p : String) : Bool :=
  p.data.isPrefixOf s.data

/-- JS truthiness of an optional string: undefined and the empty string are falsy. -/
def jsTruthyOpt (o : Option String) : Bool :=
  match o with
  | some s => s ≠ ""
  | none => false

/-- JS a || b over optional strings, where the empty string is falsy. -/
def jsOr (a b : Option String) : Option String :=
  match a with
  | some s => if s = "" then b else some s
  | none => b

/-- JS (a || default) over an optional string with a string default. -/
def jsOrD (a : Option String) (d : String) : String :=
  match a with
  | some s => if s = "" then d else s
  | none => d

/-- JS xs.slice(skip || 0).slice(0, top || undefined): note top = 0 means no limit. -/
def jsPaginate {α : Type} (l : List α) (skip top : Option Nat) : List α :=
  let l1 := l.drop (skip.getD 0)
  match top with
  | none => l1
  | some t => if t = 0 then l1 else l1.take t

theorem charsContain_iff_substring (s t : List Char) :
    charsContain s t = true ↔ t <:+: s := by
  induction s with
  | nil =>
    simp only [charsContain, List.isEmpty_iff]
    constructor
    · intro h; simp [h]
    · intro h; exact List.eq_nil_of_infix_nil h
  | cons c cs ih =>
    simp only [charsContain, Bool.or_eq_true, List.isPrefixOf_iff_prefix, ih]
    constructor
    · rintro (h | h)
      · exact h.isInfix
      · exact List.infix_cons h
    · intro h
      rcases List.infix_cons_iff.mp h with h | h
      · exact Or.inl h
      · exact Or.inr h

theorem jsIncludes_iff_substring (s t : String) :
    jsIncludes s t = true ↔ t.data <:+: s.data :=
  charsContain_iff_substring s.data t.data

/-! ## Chunked table-storage codec (azure-table-read-writer.ts)

The serialized payload (the UTF-8 bytes of the JSON encoding of the entity) is
modelled as a list of naturals.  The JSON codec (JSON.stringify / TextEncoder on
one side, TextDecoder / JSON.parse on the other) is an external library and is
passed in as a pair of functions. -/

def CHUNK_SIZE : Nat := 64000

def MAX_CHUNKS_COUNT : Nat := 15

/-- A value stored in one column of a table record: the runtime type matters
for the decoder's checks (typeof number, instanceof Uint8Array). -/
inductive RecVal where
  | num (n : Int)
  | bytes (b : List Nat)
  | str (s : String)
deriving DecidableEq, Repr

/-- The wire record DataRecordEntity: partition and row keys, the isProto flag,
the chunk count, and the dataChunk_i columns (a partial map, since a stored
record may miss columns or hold wrongly-typed ones). -/
structure DataRecordEntity where
  partitionKey : String
  rowKey : String
  isProto : Option Bool
  dataChunks : Option RecVal
  dataChunk : Nat → Option RecVal

/-- createTableEntity (azure-table-read-writer.ts lines 145-188), for the
isProtoBuf = false path taken by every caller: reject empty payloads, compute
the ceiling chunk count, reject more than MAX_CHUNKS_COUNT chunks, otherwise
lay the payload out in CHUNK_SIZE slices dataChunk_0 .. dataChunk_(N-1). -/
def createTableEntity (serializedData : List Nat) (partition rowKey : String) :
    Except String DataRecordEntity :=
  if serializedData.length = 0 then
    .error "0-length data."
  else
    let totalChunks := (serializedData.length + CHUNK_SIZE - 1) / CHUNK_SIZE
    if totalChunks > MAX_CHUNKS_COUNT then
      .error "entity data too large"
    else
      .ok { partitionKey := partition
            rowKey := rowKey
            isProto := some false
            dataChunks := some (.num totalChunks)
            dataChunk := fun i =>
              if i < totalChunks then
                some (.bytes ((serializedData.drop (i * CHUNK_SIZE)).take CHUNK_SIZE))
              else none }

/-- The chunk-reassembly loop of deserializeObject (lines 202-219): read n
chunks starting at index i, failing if any is missing or not a byte array. -/
def gatherChunksFrom (e : DataRecordEntity) : Nat → Nat → Option (List Nat)
  | _, 0 => some []
  | i, n + 1 =>
    match e.dataChunk i with
    | some (.bytes b) => (gatherChunksFrom e (i + 1) n).map (fun rest => b ++ rest)
    | _ => none

/-- deserializeObject (lines 190-232): absent/odd-typed isProto or dataChunks
gives none; a missing or non-byte chunk gives none; isProto = true throws
inside the try and is caught, giving none; a parse (UTF-8 decode + JSON.parse)
failure gives none.  Totality of this definition is the never-raises property. -/
def deserializeObject {α : Type} (parse : List Nat → Option α) (e : DataRecordEntity) :
    Option α :=
  match e.isProto, e.dataChunks with
  | some ip, some (.num c) =>
    match gatherChunksFrom e 0 c.toNat with
    | some serialized => if ip then none else parse serialized
    | none => none
  | _, _ => none

/-- A table as persisted rows, keyed by (partition, rowKey). -/
abbrev EntityTable := List (String × String × DataRecordEntity)

def upsertEntity (st : EntityTable) (e : DataRecordEntity) : EntityTable :=
  (e.partitionKey, e.rowKey, e) ::
    st.filter (fun r => !(r.1 == e.partitionKey && r.2.1 == e.rowKey))

/-- writeObject (lines 85-93): build the chunked record, then upsert it;
a createTableEntity failure propagates and nothing is persisted. -/
def writeObject {α : Type} (stringify : α → List Nat) (getId : α → String)
    (st : EntityTable) (data : α) (partition : String) : Except String EntityTable :=
  match createTableEntity (stringify data) partition (getId data) with
  | .ok e => .ok (upsertEntity st e)
  | .error msg => .error msg

/-! ### Codec lemmas -/

theorem gatherChunksFrom_slices (l : List Nat) (total : Nat) (e : DataRecordEntity)
    (hchunk : ∀ i, i < total →
      e.dataChunk i = some (.bytes ((l.drop (i * CHUNK_SIZE)).take CHUNK_SIZE))) :
    ∀ n i, i + n = total →
      gatherChunksFrom e i n = some ((l.drop (i * CHUNK_SIZE)).take (n * CHUNK_SIZE)) := by
  intro n
  induction n with
  | zero =>
    intro i _
    simp [gatherChunksFrom]
  | succ n ih =>
    intro i h
    have hi : i < total := by omega
    rw [gatherChunksFrom, hchunk i hi, ih (i + 1) (by omega)]
    simp only [Option.map_some']
    congr 1
    have h1 : (n + 1) * CHUNK_SIZE = CHUNK_SIZE + n * CHUNK_SIZE := by ring
    have h2 : i * CHUNK_SIZE + CHUNK_SIZE = (i + 1) * CHUNK_SIZE := by ring
    rw [h1, List.take_add, List.drop_drop, h2]

theorem createTableEntity_ok_roundtrip (l : List Nat) (p k : String)
    (hne : l ≠ []) (hlen : l.length ≤ MAX_CHUNKS_COUNT * CHUNK_SIZE) :
    ∃ e, createTableEntity l p k = .ok e ∧
      ∀ {α : Type} (parse : List Nat → Option α), deserializeObject parse e = parse l := by
  have hl0 : l.length ≠ 0 := by
    simpa using hne
  have hl1 : 1 ≤ l.length := Nat.one_le_iff_ne_zero.mpr hl0
  have hlen' : l.length ≤ 960000 := by
    simpa [MAX_CHUNKS_COUNT, CHUNK_SIZE] using hlen
  have htot15 : ¬ ((l.length + CHUNK_SIZE - 1) / CHUNK_SIZE > MAX_CHUNKS_COUNT) := by
    simp only [CHUNK_SIZE, MAX_CHUNKS_COUNT]
    omega
  set total := (l.length + CHUNK_SIZE - 1) / CHUNK_SIZE with htot
  refine ⟨{ partitionKey := p, rowKey := k, isProto := some false,
            dataChunks := some (.num total),
            dataChunk := fun i =>
              if i < total then
                some (.bytes ((l.drop (i * CHUNK_SIZE)).take CHUNK_SIZE))
              else none }, ?_, ?_⟩
  · unfold createTableEntity
    rw [if_neg hl0, if_neg htot15]
  · intro α parse
    have hcov : l.length ≤ total * CHUNK_SIZE := by
      simp only [htot, CHUNK_SIZE]
      omega
    have hg := gatherChunksFrom_slices l total
      { partitionKey := p, rowKey := k, isProto := some false,
        dataChunks := some (.num total),
        dataChunk := fun i =>
          if i < total then
            some (.bytes ((l.drop (i * CHUNK_SIZE)).take CHUNK_SIZE))
          else none }
      (fun i hi => by simp [hi]) total 0 (by omega)
    simp only [Nat.zero_mul, List.drop_zero] at hg
    rw [List.take_of_length_le hcov] at hg
    simp [deserializeObject, hg]

theorem createTableEntity_too_large (l : List Nat) (p k : String)
    (hlen : MAX_CHUNKS_COUNT * CHUNK_SIZE < l.length) :
    createTableEntity l p k = .error "entity data too large" := by
  have hl0 : l.length ≠ 0 := by
    simp only [MAX_CHUNKS_COUNT, CHUNK_SIZE] at hlen
    omega
  have htot : (l.length + CHUNK_SIZE - 1) / CHUNK_SIZE > MAX_CHUNKS_COUNT := by
    simp only [MAX_CHUNKS_COUNT, CHUNK_SIZE] at hlen ⊢
    omega
  unfold createTableEntity
  rw [if_neg hl0, if_pos htot]

theorem gatherChunksFrom_bad_chunk (e : DataRecordEntity) :
    ∀ n i0, (∃ j, j < n ∧ ∀ b, e.dataChunk (i0 + j) ≠ some (.bytes b)) →
      gatherChunksFrom e i0 n = none := by
  intro n
  induction n with
  | zero =>
    rintro i0 ⟨j, hj, _⟩
    omega
  | succ n ih =>
    rintro i0 ⟨j, hj, hbad⟩
    rw [gatherChunksFrom]
    rcases Nat.eq_zero_or_pos j with hj0 | hjpos
    · subst hj0
      simp only [Nat.add_zero] at hbad
      cases hc : e.dataChunk i0 with
      | none => rfl
      | some v =>
        cases v with
        | num m => rfl
        | str s => rfl
        | bytes b => exact absurd hc (hbad b)
    · cases hc : e.dataChunk i0 with
      | none => rfl
      | some v =>
        cases v with
        | num m => rfl
        | str s => rfl
        | bytes b =>
          rw [ih (i0 + 1) ⟨j - 1, by omega, fun b' => by
            have : i0 + 1 + (j - 1) = i0 + j := by omega
            rw [this]
            exact hbad b'⟩]
          rfl

/-! ### Claims C1 and C4 -/

/-- Claim C1: for every entity whose UTF-8-encoded JSON payload splits into at
most 15 chunks of at most 64000 bytes each (payload length at most 960000),
encoding it into a chunked table record and then decoding that record yields an
object deep-equal to the original (deep equality of the entity is supplied by
the JSON codec round-trip hypothesis hjson); for every entity whose payload
requires more than 15 chunks, the write fails outright and persists zero
chunks (writeObject returns an error and no table state). -/
theorem chunk_codec_roundtrip_and_capacity {α : Type}
    (stringify : α → List Nat) (parse : List Nat → Option α) (getId : α → String)
    (x : α) (p : String)
    (hjson : parse (stringify x) = some x)
    (hne : stringify x ≠ []) :
    ((stringify x).length ≤ MAX_CHUNKS_COUNT * CHUNK_SIZE →
      ∃ e, createTableEntity (stringify x) p (getId x) = .ok e ∧
        deserializeObject parse e = some x) ∧
    (MAX_CHUNKS_COUNT * CHUNK_SIZE < (stringify x).length →
      createTableEntity (stringify x) p (getId x) = .error "entity data too large" ∧
      ∀ (st st' : EntityTable), writeObject stringify getId st x p ≠ .ok st') := by
  constructor
  · intro hlen
    obtain ⟨e, he, hdes⟩ := createTableEntity_ok_roundtrip (stringify x) p (getId x) hne hlen
    exact ⟨e, he, by rw [hdes parse, hjson]⟩
  · intro hlen
    have herr := createTableEntity_too_large (stringify x) p (getId x) hlen
    refine ⟨herr, fun st st' h => ?_⟩
    rw [writeObject, herr] at h
    exact Except.noConfusion h

theorem chunk_codec_roundtrip_witness :
    ((((fun l : List Nat => l) [7, 8]).length ≤ MAX_CHUNKS_COUNT * CHUNK_SIZE →
      ∃ e, createTableEntity (((fun l : List Nat => l)) [7, 8]) "p" ((fun _ : List Nat => "k") [7, 8]) = .ok e ∧
        deserializeObject some e = some [7, 8]) ∧
    (MAX_CHUNKS_COUNT * CHUNK_SIZE < (((fun l : List Nat => l)) [7, 8]).length →
      createTableEntity (((fun l : List Nat => l)) [7, 8]) "p" ((fun _ : List Nat => "k") [7, 8]) = .error "entity data too large" ∧
      ∀ (st st' : EntityTable), writeObject (fun l => l) (fun _ => "k") st [7, 8] "p" ≠ .ok st')) :=
  chunk_codec_roundtrip_and_capacity (fun l => l) some (fun _ => "k") [7, 8] "p" rfl (by decide)

/-- Claim C4: for every stored table record in which the chunk-count field is
missing or non-numeric, or in which any expected chunk dataChunk_i
(i < dataChunks) is missing or not a byte array, or in which decoding the
reassembled payload (UTF-8 decode + JSON.parse, the parse parameter) fails,
deserializeObject returns none; being a total Lean function it never raises. -/
theorem deserialize_corrupt_record_absent {α : Type}
    (parse : List Nat → Option α) (e : DataRecordEntity)
    (hbad :
      e.dataChunks = none ∨
      (∃ v, e.dataChunks = some v ∧ ∀ n : Int, v ≠ .num n) ∨
      (∃ c : Int, e.dataChunks = some (.num c) ∧
        ∃ i : Nat, i < c.toNat ∧ ∀ b, e.dataChunk i ≠ some (.bytes b)) ∨
      (∃ c : Int, e.dataChunks = some (.num c) ∧
        ∃ bs, gatherChunksFrom e 0 c.toNat = some bs ∧ parse bs = none)) :
    deserializeObject parse e = none := by
  rcases hbad with h | ⟨v, hv, hnum⟩ | ⟨c, hc, i, hi, hbadc⟩ | ⟨c, hc, bs, hbs, hparse⟩
  · unfold deserializeObject
    rw [h]
    cases e.isProto <;> rfl
  · unfold deserializeObject
    rw [hv]
    cases e.isProto with
    | none => rfl
    | some ip =>
      cases v with
      | num n => exact absurd rfl (hnum n)
      | bytes b => rfl
      | str s => rfl
  · have hg := gatherChunksFrom_bad_chunk e c.toNat 0 ⟨i, hi, by simpa using hbadc⟩
    cases hp : e.isProto with
    | none => simp [deserializeObject, hp, hc]
    | some ip => simp [deserializeObject, hp, hc, hg]
  · cases hp : e.isProto with
    | none => simp [deserializeObject, hp, hc]
    | some ip =>
      cases ip with
      | true => simp [deserializeObject, hp, hc, hbs]
      | false => simp [deserializeObject, hp, hc, hbs, hparse]

theorem deserialize_corrupt_record_absent_witness :
    deserializeObject (fun _ => (none : Option Nat))
      { partitionKey := "p", rowKey := "k", isProto := some false,
        dataChunks := none, dataChunk := fun _ => none } = none :=
  deserialize_corrupt_record_absent (fun _ => (none : Option Nat))
    { partitionKey := "p", rowKey := "k", isProto := some false,
      dataChunks := none, dataChunk := fun _ => none }
    (Or.inl rfl)

/-! ## Data model (simply-feed.types.ts) -/

inductive FeedItemType where
  | Post
  | Podcast
deriving DecidableEq, Repr

structure FeedItemGuid where
  guid : String
  isLink : Bool
deriving DecidableEq, Repr

structure RefLink where
  url : String
  title : Option String
deriving DecidableEq, Repr

structure Feed where
  id : String
  title : String := "Untitled Feed"
  subtitle : String := ""
  description : String := ""
  feedUrl : String
  language : Option String := none
  link : Option String := none
  imageUrl : Option String := none
  author : Option String := none
  copyright : Option String := none
  generator : Option String := none
  latestItemPublishedTime : Int := 0
  firstItemPublishedTime : Int := 0
  lastUpdateTime : Int := 0
deriving DecidableEq, Repr

structure FeedItem where
  id : String
  feedId : String
  feedItemType : FeedItemType := .Post
  title : String := ""
  subtitle : String := ""
  description : String := ""
  author : Option String := none
  link : String
  content : String := ""
  enclosureUrl : Option String := none
  duration : Option Int := none
  imageUrl : Option String := none
  categories : List String := []
  guid : Option FeedItemGuid := none
  summary : Option String := none
  topics : Option (List String) := none
  refLinks : Option (List RefLink) := none
  publishedTime : Int := 0
  lastUpdateTime : Int := 0
deriving DecidableEq, Repr

/-! ## Feed parser (feed-reader.ts)

The XML getter stack (getElement / getStringElement / getElementAttribute over
the parsed attributed tree with the namespace-prefix map) is abstracted by a
record of the candidate values each getter chain would return for one raw item
or for the channel.  HTML-to-Markdown conversion (nhm.translate), markdown link
scanning (mdast), uuid generation and Date.now are parameters; duration and
date parsing of scalar strings is likewise treated as pre-parsed input since no
claim depends on it. -/

/-- The getter results for one raw RSS/Atom item element. -/
structure RawItem where
  enclosureUrl : Option String := none
  guidText : Option String := none
  guidIsPermaLink : Option Bool := none
  atomLinkHref : Option String := none
  linkHref : Option String := none
  linkText : Option String := none
  itunesAuthor : Option String := none
  dcCreator : Option String := none
  authorName : Option String := none
  authorText : Option String := none
  mediaContentUrl : Option String := none
  mediaThumbnailUrl : Option String := none
  itunesImageHref : Option String := none
  titleText : Option String := none
  titleStr : Option String := none
  subtitleText : Option String := none
  subtitleStr : Option String := none
  durationSecs : Option Int := none
  publishedTime : Int := 0
  contentText : Option String := none
  encodedText : Option String := none
  descriptionText : Option String := none
  descriptionStr : Option String := none
  categories : List String := []
deriving DecidableEq, Repr

/-- The getter results for the channel element. -/
structure ChannelRaw where
  atomLinkHref : Option String := none
  linkHref : Option String := none
  linkText : Option String := none
  imageUrl : Option String := none
  imageHref : Option String := none
  itunesImageHref : Option String := none
  itunesAuthor : Option String := none
  dcCreator : Option String := none
  titleText : Option String := none
  titleStr : Option String := none
  subtitleText : Option String := none
  subtitleStr : Option String := none
  descriptionText : Option String := none
  descriptionStr : Option String := none
  language : Option String := none
  copyright : Option String := none
  generator : Option String := none
deriving DecidableEq, Repr

/-- Array spread through a Set: first-occurrence dedup in insertion order. -/
def dedupStrings (l : List String) : List String :=
  l.foldl (fun acc s => if acc.contains s then acc else acc ++ [s]) []

/-- parseItemGuid (feed-reader.ts lines 215-226). -/
def parseItemGuid (r : RawItem) : Option FeedItemGuid :=
  match r.guidText with
  | none => none
  | some g =>
    if g = "" then none
    else some { guid := g, isLink := r.guidIsPermaLink ≠ some false }

/-- getRefLinksFromMarkdown (lines 362-378): mdLinks is the mdast link scan,
yielding for each markdown link its url, optional title and inline text. -/
def getRefLinksFromMarkdown (mdLinks : String → List (String × Option String × String))
    (content itemLink : String) : Option (List RefLink) :=
  let links := (mdLinks content).filterMap (fun u =>
    if jsStartsWith u.1 itemLink then none
    else some ({ url := u.1,
                 title := jsOr u.2.1 (if u.2.2 = "" then none else some u.2.2) } : RefLink))
  if links.isEmpty then none else some links

/-- The item link chain of lines 156-160: Atom href, bare href, text content,
then the guid value when the guid is a permalink. -/
def resolveItemLink (r : RawItem) : Option String :=
  jsOr (jsOr (jsOr r.atomLinkHref r.linkHref) r.linkText)
    (match parseItemGuid r with
     | some g => if g.isLink then some g.guid else none
     | none => none)

/-- Line 175: content-module encoded field with default, else base content, else empty. -/
def itemEncoded (r : RawItem) : String :=
  jsOrD (jsOr r.encodedText r.contentText) ""

/-- Line 176: description attribute text, else string element, else empty. -/
def itemDescriptionRaw (r : RawItem) : String :=
  jsOrD (jsOr r.descriptionText r.descriptionStr) ""

/-- Line 179: HTML-to-Markdown conversion of the non-empty content. -/
def itemMdContent (nhm : String → String) (r : RawItem) : String :=
  if itemEncoded r ≠ "" then nhm (itemEncoded r) else ""

/-- Line 180: HTML-to-Markdown conversion of the non-empty description. -/
def itemMdDesc (nhm : String → String) (r : RawItem) : String :=
  if itemDescriptionRaw r ≠ "" then nhm (itemDescriptionRaw r) else ""

/-- The body of the forEach in extractFeedItems (lines 148-210) for one raw
item: resolve type, guid, link, author, image, title, content and description,
apply the discard rule of line 183, and build the FeedItem. -/
def extractOne (nhm : String → String) (mdLinks : String → List (String × Option String × String))
    (feedId itemId : String) (now : Int) (r : RawItem) : Option FeedItem :=
  match resolveItemLink r with
  | none => none
  | some l =>
    if l = "" ∨ (itemMdDesc nhm r = "" ∧ itemMdContent nhm r = "") then none
    else
      some { id := itemId, feedId := feedId,
             feedItemType := if jsTruthyOpt r.enclosureUrl then FeedItemType.Podcast else FeedItemType.Post,
             title := nhm (jsOrD (jsOr r.titleText r.titleStr) "Untitled"),
             subtitle := jsOrD (jsOr r.subtitleText r.subtitleStr) "",
             description := itemMdDesc nhm r,
             author := jsOr (jsOr (jsOr r.itunesAuthor r.dcCreator) r.authorName) r.authorText,
             link := l, content := itemMdContent nhm r,
             enclosureUrl := r.enclosureUrl, duration := r.durationSecs,
             imageUrl := jsOr (jsOr r.mediaContentUrl r.mediaThumbnailUrl) r.itunesImageHref,
             categories := dedupStrings r.categories,
             guid := parseItemGuid r, publishedTime := r.publishedTime, lastUpdateTime := now,
             refLinks := getRefLinksFromMarkdown mdLinks (itemMdContent nhm r) l }

/-- extractFeedItems (lines 144-213): null raw items are skipped; discarded
items are dropped; mkId supplies the uuid for each position. -/
def extractFeedItems (nhm : String → String)
    (mkId : Nat → String) (mdLinks : String → List (String × Option String × String))
    (feedId : String) (raws : List (Option RawItem)) (now : Int) : List FeedItem :=
  raws.enum.filterMap (fun p =>
    match p.2 with
    | none => none
    | some r => extractOne nhm mdLinks feedId (mkId p.1) now r)

/-- Math.max over a nonempty spread list (0 for the empty list, unused there). -/
def listMax : List Int → Int
  | [] => 0
  | [t] => t
  | t :: ts => max t (listMax ts)

/-- Math.min over a nonempty spread list (0 for the empty list, unused there). -/
def listMin : List Int → Int
  | [] => 0
  | [t] => t
  | t :: ts => min t (listMin ts)

/-- applyChannel: the channel-field assignments of fetchItemsAndUpdateFeed
(lines 98-120); timestamps are not touched here. -/
def applyChannel (feed : Feed) (c : ChannelRaw) : Feed :=
  { feed with
    title := jsOrD (jsOr c.titleText c.titleStr) "Untitled Feed"
    subtitle := jsOrD (jsOr c.subtitleText c.subtitleStr) ""
    description := jsOrD (jsOr c.descriptionText c.descriptionStr) ""
    language := c.language
    link := jsOr (jsOr c.atomLinkHref c.linkHref) c.linkText
    imageUrl := jsOr (jsOr c.imageUrl c.imageHref) c.itunesImageHref
    author := jsOr c.itunesAuthor c.dcCreator
    copyright := c.copyright
    generator := c.generator }

/-- Lines 128-134: when at least one item was extracted and at least one has a
positive publishedTime, recompute the feed timestamps as Math.max / Math.min
over the positive values; otherwise leave them as they are. -/
def feedWithTimes (f : Feed) (items : List FeedItem) : Feed :=
  if items.length > 0 then
    let publishedTimes := (items.map (fun i => i.publishedTime)).filter (fun t => t > 0)
    if publishedTimes.length > 0 then
      { f with latestItemPublishedTime := listMax publishedTimes,
               firstItemPublishedTime := listMin publishedTimes }
    else f
  else f

/-- fetchItemsAndUpdateFeed (lines 55-142) beyond the network fetch: the fetch
and XML parse results are given as chan and rawItems (rawItems = none models a
document without item/entry elements).  Updates the channel fields, extracts
items, recomputes the feed timestamps from positive publishedTime values when
present, and stamps lastUpdateTime. -/
def fetchItemsAndUpdateFeed (feed : Feed) (chan : ChannelRaw)
    (rawItems : Option (List (Option RawItem)))
    (nhm : String → String) (mkId : Nat → String)
    (mdLinks : String → List (String × Option String × String)) (now : Int) :
    Feed × List FeedItem :=
  let items : List FeedItem := match rawItems with
    | some rs => extractFeedItems nhm mkId mdLinks feed.id rs now
    | none => []
  ({ feedWithTimes (applyChannel feed chan) items with lastUpdateTime := now }, items)

theorem le_listMax : ∀ (l : List Int), ∀ t ∈ l, t ≤ listMax l := by
  intro l
  induction l with
  | nil => intro t ht; cases ht
  | cons a l ih =>
    intro t ht
    cases l with
    | nil =>
      rcases List.mem_singleton.mp ht with rfl
      exact le_refl _
    | cons b bs =>
      rcases List.mem_cons.mp ht with rfl | hmem
      · exact le_max_left _ _
      · exact le_trans (ih t hmem) (le_max_right _ _)

theorem listMax_cons_cons (a b : Int) (bs : List Int) :
    listMax (a :: b :: bs) = max a (listMax (b :: bs)) := rfl

theorem listMax_mem : ∀ (l : List Int), l ≠ [] → listMax l ∈ l := by
  intro l
  induction l with
  | nil => intro h; exact absurd rfl h
  | cons a l ih =>
    intro _
    cases l with
    | nil => exact List.mem_singleton.mpr rfl
    | cons b bs =>
      rcases max_choice a (listMax (b :: bs)) with h | h
      · rw [listMax_cons_cons, h]; exact List.mem_cons_self _ _
      · rw [listMax_cons_cons, h]; exact List.mem_cons_of_mem _ (ih (List.cons_ne_nil _ _))

theorem listMin_le : ∀ (l : List Int), ∀ t ∈ l, listMin l ≤ t := by
  intro l
  induction l with
  | nil => intro t ht; cases ht
  | cons a l ih =>
    intro t ht
    cases l with
    | nil =>
      rcases List.mem_singleton.mp ht with rfl
      exact le_refl _
    | cons b bs =>
      rcases List.mem_cons.mp ht with rfl | hmem
      · exact min_le_left _ _
      · exact le_trans (min_le_right _ _) (ih t hmem)

theorem listMin_cons_cons (a b : Int) (bs : List Int) :
    listMin (a :: b :: bs) = min a (listMin (b :: bs)) := rfl

theorem listMin_mem : ∀ (l : List Int), l ≠ [] → listMin l ∈ l := by
  intro l
  induction l with
  | nil => intro h; exact absurd rfl h
  | cons a l ih =>
    intro _
    cases l with
    | nil => exact List.mem_singleton.mpr rfl
    | cons b bs =>
      rcases min_choice a (listMin (b :: bs)) with h | h
      · rw [listMin_cons_cons, h]; exact List.mem_cons_self _ _
      · rw [listMin_cons_cons, h]; exact List.mem_cons_of_mem _ (ih (List.cons_ne_nil _ _))

/-! ### Claim C7 -/

theorem extractOne_kept_has_link_and_content
    (nhm : String → String) (mdLinks : String → List (String × Option String × String))
    (feedId itemId : String) (now : Int) (r : RawItem) (fi : FeedItem)
    (h : extractOne nhm mdLinks feedId itemId now r = some fi) :
    fi.link ≠ "" ∧ (fi.content ≠ "" ∨ fi.description ≠ "") := by
  cases hml : resolveItemLink r with
  | none =>
    simp only [extractOne, hml] at h
    exact Option.noConfusion h
  | some l =>
    simp only [extractOne, hml] at h
    by_cases hC : l = "" ∨ (itemMdDesc nhm r = "" ∧ itemMdContent nhm r = "")
    · rw [if_pos hC] at h
      exact Option.noConfusion h
    · rw [if_neg hC] at h
      obtain rfl := Option.some.inj h
      refine ⟨fun he => hC (Or.inl he), ?_⟩
      by_cases hc : itemMdContent nhm r = ""
      · exact Or.inr (fun hd => hC (Or.inr ⟨hd, hc⟩))
      · exact Or.inl hc

/-- Claim C7: every item emitted by extractFeedItems has a (truthy, so
non-empty) link and a non-empty converted content or a non-empty converted
description; items failing the discard rule at feed-reader.ts line 183 are
dropped. -/
theorem extractFeedItems_discard_rule (nhm : String → String)
    (mkId : Nat → String) (mdLinks : String → List (String × Option String × String))
    (feedId : String) (raws : List (Option RawItem)) (now : Int) :
    ∀ fi ∈ extractFeedItems nhm mkId mdLinks feedId raws now,
      fi.link ≠ "" ∧ (fi.content ≠ "" ∨ fi.description ≠ "") := by
  intro fi hfi
  unfold extractFeedItems at hfi
  rw [List.mem_filterMap] at hfi
  obtain ⟨⟨idx, ro⟩, _, hpe⟩ := hfi
  cases ro with
  | none => exact Option.noConfusion hpe
  | some r => exact extractOne_kept_has_link_and_content nhm mdLinks feedId (mkId idx) now r fi hpe

def c7raw : RawItem := { linkHref := some "L", encodedText := some "c", publishedTime := 5 }

def c7item : FeedItem :=
  { id := "i", feedId := "f", feedItemType := .Post, title := "Untitled", subtitle := "",
    description := "", author := none, link := "L", content := "c", enclosureUrl := none,
    duration := none, imageUrl := none, categories := [], guid := none, summary := none,
    topics := none, refLinks := none, publishedTime := 5, lastUpdateTime := 0 }

theorem extractFeedItems_discard_rule_witness :
    c7item ∈ extractFeedItems (fun s => s) (fun _ => "i") (fun _ => []) "f" [some c7raw] 0 ∧
    (c7item.link ≠ "" ∧ (c7item.content ≠ "" ∨ c7item.description ≠ "")) :=
  ⟨by decide,
   extractFeedItems_discard_rule (fun s => s) (fun _ => "i") (fun _ => []) "f"
     [some c7raw] 0 c7item (by decide)⟩

/-! ### Claim C6 -/

theorem feedWithTimes_spec (f : Feed) (items : List FeedItem) :
    (((items.map (fun i => i.publishedTime)).filter (fun t => t > 0)) ≠ [] →
      (feedWithTimes f items).latestItemPublishedTime =
        listMax ((items.map (fun i => i.publishedTime)).filter (fun t => t > 0)) ∧
      (feedWithTimes f items).firstItemPublishedTime =
        listMin ((items.map (fun i => i.publishedTime)).filter (fun t => t > 0))) ∧
    (((items.map (fun i => i.publishedTime)).filter (fun t => t > 0)) = [] →
      feedWithTimes f items = f) := by
  constructor
  · intro hne
    have hitems : items.length > 0 := by
      cases items with
      | nil => simp at hne
      | cons a l => simp
    have hlen : ((items.map (fun i => i.publishedTime)).filter (fun t => t > 0)).length > 0 :=
      List.length_pos.mpr hne
    simp only [feedWithTimes, if_pos hitems, if_pos hlen]
    constructor <;> trivial
  · intro hnil
    unfold feedWithTimes
    by_cases hitems : items.length > 0
    · rw [if_pos hitems]
      simp only [hnil]
      rfl
    · rw [if_neg hitems]

def c6feed : Feed :=
  { id := "f", feedUrl := "u", latestItemPublishedTime := 7, firstItemPublishedTime := 7 }

def c6rawA : RawItem := { linkHref := some "A", encodedText := some "a", publishedTime := 0 }

def c6rawB : RawItem := { linkHref := some "B", encodedText := some "b", publishedTime := 100 }

/-- Claim C6 counterexample: a successful refresh extracting two items, one
with an unparseable date (publishedTime 0) and one with publishedTime 100,
sets firstItemPublishedTime to 100, which is not the minimum publishedTime
over the extracted items (the extracted item list contains an item with a
strictly smaller publishedTime). -/
theorem fetch_timestamps_counterexample :
    (fetchItemsAndUpdateFeed c6feed {} (some [some c6rawA, some c6rawB])
        (fun s => s) (fun _ => "i") (fun _ => []) 50).1.firstItemPublishedTime = 100 ∧
    (fetchItemsAndUpdateFeed c6feed {} (some [some c6rawA, some c6rawB])
        (fun s => s) (fun _ => "i") (fun _ => []) 50).2.length = 2 ∧
    ∃ fi ∈ (fetchItemsAndUpdateFeed c6feed {} (some [some c6rawA, some c6rawB])
        (fun s => s) (fun _ => "i") (fun _ => []) 50).2,
      fi.publishedTime <
        (fetchItemsAndUpdateFeed c6feed {} (some [some c6rawA, some c6rawB])
          (fun s => s) (fun _ => "i") (fun _ => []) 50).1.firstItemPublishedTime := by
  decide

/-- Claim C6, amended: on a successful refresh, when at least one extracted
item has a positive publishedTime, latestItemPublishedTime and
firstItemPublishedTime are recomputed as the maximum and minimum over the
positive publishedTime values of the extracted items (listMax / listMin are
characterized as genuine max and min); when no item is extracted, or every
extracted item has publishedTime 0 (no parseable date), both timestamps are
left unchanged. -/
theorem fetch_timestamps_amended (feed : Feed) (chan : ChannelRaw)
    (rawItems : Option (List (Option RawItem))) (nhm : String → String)
    (mkId : Nat → String) (mdLinks : String → List (String × Option String × String))
    (now : Int) :
    let out := fetchItemsAndUpdateFeed feed chan rawItems nhm mkId mdLinks now
    let pts := (out.2.map (fun i => i.publishedTime)).filter (fun t => t > 0)
    (pts ≠ [] →
      out.1.latestItemPublishedTime = listMax pts ∧
      out.1.firstItemPublishedTime = listMin pts ∧
      listMax pts ∈ pts ∧ listMin pts ∈ pts ∧
      ∀ t ∈ pts, listMin pts ≤ t ∧ t ≤ listMax pts) ∧
    (pts = [] →
      out.1.latestItemPublishedTime = feed.latestItemPublishedTime ∧
      out.1.firstItemPublishedTime = feed.firstItemPublishedTime) := by
  intro out pts
  have hout2 : out.2 = (match rawItems with
    | some rs => extractFeedItems nhm mkId mdLinks feed.id rs now
    | none => []) := rfl
  have hspec := feedWithTimes_spec (applyChannel feed chan) out.2
  have h1 : out.1.latestItemPublishedTime =
      (feedWithTimes (applyChannel feed chan) out.2).latestItemPublishedTime := rfl
  have h2 : out.1.firstItemPublishedTime =
      (feedWithTimes (applyChannel feed chan) out.2).firstItemPublishedTime := rfl
  constructor
  · intro hne
    refine ⟨h1.trans (hspec.1 hne).1, h2.trans (hspec.1 hne).2, listMax_mem pts hne,
            listMin_mem pts hne, fun t ht => ⟨listMin_le pts t ht, le_listMax pts t ht⟩⟩
  · intro hnil
    have hfeed := hspec.2 hnil
    constructor
    · rw [h1, hfeed]
      rfl
    · rw [h2, hfeed]
      rfl

/-- Witness for the amended C6 theorem at a concrete input with one positive
publishedTime: the recomputed latest timestamp is the maximum over the
positive values. -/
theorem fetch_timestamps_amended_witness :
    (fetchItemsAndUpdateFeed c6feed {} (some [some c6rawB])
        (fun s => s) (fun _ => "i") (fun _ => []) 50).1.latestItemPublishedTime =
      listMax (((fetchItemsAndUpdateFeed c6feed {} (some [some c6rawB])
        (fun s => s) (fun _ => "i") (fun _ => []) 50).2.map
          (fun i => i.publishedTime)).filter (fun t => t > 0)) :=
  ((fetch_timestamps_amended c6feed {} (some [some c6rawB])
    (fun s => s) (fun _ => "i") (fun _ => []) 50).1 (by decide)).1

/-! ## Feed manager (simply-feed-manager.ts)

The manager state holds the feed cache (a JS Map in insertion order), the
per-feed item cache, the feed-snapshot timestamp and the two tables in their
decoded view (the chunk codec is verified separately above; the manager talks
to storage through the TableReadWriter interface).  Date.now is passed as the
now parameter of each operation; the LLM completion is the llm parameter. -/

def FEED_PARTITION : String := "default"

def FEEDS_CACHE_MAX_AGE_MS : Int := 5 * 60 * 1000

def DEFAULT_RETENTION_DAYS : Int := 5

/-- The dedup identity key (item.guid?.guid || item.link): an empty guid value
is falsy and falls back to the link. -/
def itemKey (i : FeedItem) : String :=
  match i.guid with
  | some g => if g.guid = "" then i.link else g.guid
  | none => i.link

/-- One insertion step of sorting by publishedTime descending. -/
def insertDesc (x : FeedItem) : List FeedItem → List FeedItem
  | [] => [x]
  | y :: ys => if y.publishedTime ≤ x.publishedTime then x :: y :: ys else y :: insertDesc x ys

/-- items.sort((a, b) => b.publishedTime - a.publishedTime), as insertion sort
(the comparison order of equal keys is unspecified in both). -/
def sortDesc (l : List FeedItem) : List FeedItem :=
  l.foldr insertDesc []

/-- The filter/findIndex dedup of getItemsFromFeed lines 193-196: keep the
first occurrence of each identity key. -/
def dedupByKeyAux (seen : List String) : List FeedItem → List FeedItem
  | [] => []
  | x :: xs =>
    if seen.contains (itemKey x) then dedupByKeyAux seen xs
    else x :: dedupByKeyAux (itemKey x :: seen) xs

def dedupByKey (l : List FeedItem) : List FeedItem :=
  dedupByKeyAux [] l

/-- A table in decoded view: (partition, rowKey, entity) rows. -/
abbrev DataTable (α : Type) := List (String × String × α)

/-- getObject(key, partition): note the key-then-partition parameter order of
the TableReadWriter interface. -/
def storeGet {α : Type} (st : DataTable α) (key partition : String) : Option α :=
  (st.find? (fun r => r.1 == partition && r.2.1 == key)).map (fun r => r.2.2)

def storeUpsert {α : Type} (st : DataTable α) (partition key : String) (v : α) : DataTable α :=
  if st.any (fun r => r.1 == partition && r.2.1 == key) then
    st.map (fun r => if r.1 == partition && r.2.1 == key then (partition, key, v) else r)
  else st ++ [(partition, key, v)]

def storeDeleteKeys {α : Type} (st : DataTable α) (partition : String) (keys : List String) :
    DataTable α :=
  st.filter (fun r => !(r.1 == partition && keys.contains r.2.1))

/-- getAllObjects() without top and skip: every decoded entity. -/
def storeAllValues {α : Type} (st : DataTable α) : List α :=
  st.map (fun r => r.2.2)

/-- queryObjects over the items table with the only filter shape the manager
issues: empty (all of the partition) or extra_publishedTime ge timeL, which
both backends evaluate as publishedTime at least the bound. -/
def storeQueryItems (st : DataTable FeedItem) (partition : String) (fromTime : Option Int) :
    List FeedItem :=
  (st.filter (fun r => r.1 == partition &&
    match fromTime with
    | some t => decide (t ≤ r.2.2.publishedTime)
    | none => true)).map (fun r => r.2.2)

structure ManagerState where
  cachedFeeds : List Feed
  cachedItems : List (String × List FeedItem)
  cachedFeedsTimestamp : Int
  feedStore : DataTable Feed
  itemStore : DataTable FeedItem
deriving DecidableEq, Repr

/-- this.cachedFeeds.set(feed.id, feed) on a JS Map: replace in place or append. -/
def cacheFeedPut (l : List Feed) (f : Feed) : List Feed :=
  if l.any (fun g => g.id == f.id) then l.map (fun g => if g.id == f.id then f else g)
  else l ++ [f]

/-- this.cachedItems.set(feedId, items). -/
def setItems (cache : List (String × List FeedItem)) (fid : String) (l : List FeedItem) :
    List (String × List FeedItem) :=
  if cache.any (fun p => p.1 == fid) then
    cache.map (fun p => if p.1 == fid then (fid, l) else p)
  else cache ++ [(fid, l)]

/-- this.cachedItems.get(feedId). -/
def lookupItems (cache : List (String × List FeedItem)) (fid : String) :
    Option (List FeedItem) :=
  (cache.find? (fun p => p.1 == fid)).map (fun p => p.2)

/-- getFeed (manager lines 92-104): cache first; on miss read storage with the
source's swapped call getObject(FEED_PARTITION, id), i.e. key = "default" and
partition = id; storage errors are caught and yield none. -/
def getFeed (s : ManagerState) (id : String) : Option Feed × ManagerState :=
  match s.cachedFeeds.find? (fun f => f.id == id) with
  | some f => (some f, s)
  | none =>
    match storeGet s.feedStore FEED_PARTITION id with
    | some f => (some f, { s with cachedFeeds := cacheFeedPut s.cachedFeeds f })
    | none => (none, s)

/-- getFeeds (lines 123-137): serve the cache while it is younger than 5
minutes and non-empty, else reload every feed and repopulate by key. -/
def getFeeds (s : ManagerState) (now : Int) (top skip : Option Nat) :
    List Feed × ManagerState :=
  if s.cachedFeeds.length ≠ 0 ∧ now - s.cachedFeedsTimestamp < FEEDS_CACHE_MAX_AGE_MS then
    (jsPaginate s.cachedFeeds skip top, s)
  else
    let feeds := storeAllValues s.feedStore
    (jsPaginate feeds skip top,
     { s with cachedFeeds := feeds.foldl cacheFeedPut s.cachedFeeds,
              cachedFeedsTimestamp := now })

/-- queryFeeds (lines 139-147): split the query on the space character, trim
each fragment, drop empties, keep feeds whose title includes any fragment,
then paginate. -/
def queryFeeds (s : ManagerState) (now : Int) (query : String) (top skip : Option Nat) :
    List Feed × ManagerState :=
  let (feeds, s1) := getFeeds s now none none
  let queries := ((jsSplitSpace query).map jsTrim).filter (fun q => q ≠ "")
  let matchedFeeds := feeds.filter (fun f => queries.any (fun q => jsIncludes f.title q))
  (jsPaginate matchedFeeds skip top, s1)

/-- getItem (lines 149-170): invalid feed id raises; then item cache, then
storage, then an item-not-found error. -/
def getItem (s : ManagerState) (feedId id : String) :
    Except String FeedItem × ManagerState :=
  match getFeed s feedId with
  | (none, s1) => (.error "Invalid Feed ID.", s1)
  | (some feed, s1) =>
    let fromCache :=
      match lookupItems s1.cachedItems feed.id with
      | some cs => cs.find? (fun i => i.id == id)
      | none => none
    match fromCache with
    | some it => (.ok it, s1)
    | none =>
      match storeGet s1.itemStore id feed.id with
      | some it => (.ok it, s1)
      | none => (.error "Item not found.", s1)

/-- The staleness predicate of getItemsFromFeed line 179: no cache, an empty
cache, or a cache head older than the feed's latestItemPublishedTime. -/
def staleOf (cached0 : Option (List FeedItem)) (feed : Feed) : Bool :=
  match cached0 with
  | none => true
  | some [] => true
  | some (h :: _) => decide (h.publishedTime < feed.latestItemPublishedTime)

/-- Lines 178-205 of getItemsFromFeed: on staleness, query storage
(incrementally from head.publishedTime + 1 when the cache is non-empty), sort
descending, merge with the cache, dedup by identity key, re-sort, and replace
the cache entry; otherwise serve the cache. -/
def loadItems (s1 : ManagerState) (feed : Feed) : List FeedItem × ManagerState :=
  let cached0 := lookupItems s1.cachedItems feed.id
  if staleOf cached0 feed then
    let queryFrom : Option Int :=
      match cached0 with
      | some (h :: _) => some (h.publishedTime + 1)
      | _ => none
    let items := sortDesc (storeQueryItems s1.itemStore feed.id queryFrom)
    match cached0 with
    | some (c :: cs) =>
      let uniqueItems := sortDesc (dedupByKey (items ++ (c :: cs)))
      (uniqueItems, { s1 with cachedItems := setItems s1.cachedItems feed.id uniqueItems })
    | _ => (items, { s1 with cachedItems := setItems s1.cachedItems feed.id items })
  else (cached0.getD [], s1)

/-- Lines 207-215: the since filter; a falsy (0) bound disables it. -/
def sinceFilter (cur : List FeedItem) (startPublishedTime : Option Int) : List FeedItem :=
  match startPublishedTime with
  | some t => if t ≠ 0 then cur.filter (fun i => decide (t ≤ i.publishedTime)) else cur
  | none => cur

/-- getItemsFromFeed (lines 172-218): unknown feed gives the empty list; a
missing, empty or outdated cache triggers a storage query, merge, dedup by
identity key and descending re-sort; the since filter applies before
pagination. -/
def getItemsFromFeed (s : ManagerState) (id : String) (top skip : Option Nat)
    (startPublishedTime : Option Int) : List FeedItem × ManagerState :=
  match getFeed s id with
  | (none, s1) => ([], s1)
  | (some feed, s1) =>
    (jsPaginate (sinceFilter (loadItems s1 feed).1 startPublishedTime) skip top,
     (loadItems s1 feed).2)

/-- getRecentItems (lines 220-232): fan getItemsFromFeed out over every feed
with since = now minus the recency window, concatenate, re-sort descending,
paginate. -/
def getRecentItems (s : ManagerState) (now : Int) (recencyInMinutes : Int)
    (top skip : Option Nat) : List FeedItem × ManagerState :=
  let recencyCutOff := now - recencyInMinutes * 60 * 1000
  let (feeds, s1) := getFeeds s now none none
  let folded := feeds.foldl
    (fun (acc : List FeedItem × ManagerState) feed =>
      let r := getItemsFromFeed acc.2 feed.id none none (some recencyCutOff)
      (acc.1 ++ r.1, r.2))
    (([] : List FeedItem), s1)
  (jsPaginate (sortDesc folded.1) skip top, folded.2)

/-- ASCII lowering for String.prototype.toLowerCase on the tokens involved. -/
def charLowerAscii (c : Char) : Char :=
  if 'A' ≤ c ∧ c ≤ 'Z' then Char.ofNat (c.toNat + 32) else c

def strLower (s : String) : String :=
  ⟨s.data.map charLowerAscii⟩

/-- Set.add over every element, keeping insertion order and dropping repeats. -/
def setAddAll (acc : List String) (ts : List String) : List String :=
  ts.foldl (fun a t => if a.contains t then a else a ++ [t]) acc

/-- Which collaborators a queryItems call touched: the LLM topic extraction,
the feed list (cache or storage) and the per-feed item caches. -/
structure QueryItemsEffects where
  llmCalled : Bool
  feedsRead : Bool
  itemCachesRead : Bool
deriving DecidableEq, Repr

/-- queryItems (lines 234-265): a blank (whitespace-only) query returns the
empty list before the determineTopics LLM call and before any feed or item
access; otherwise derive the topic set (LLM topics, already lowercased, given
as llmTopics, with none modelling the LLM failure fallback), union with the
lowercased space-split query tokens, restrict feeds by the filter, warm the
item caches, and match items by topic intersection or title inclusion. -/
def queryItems (s : ManagerState) (now : Int)
    (llmTopics : Option (List String)) (query : String) (feedFilter : Option String)
    (top skip : Option Nat) : List FeedItem × ManagerState × QueryItemsEffects :=
  let q := jsTrim query
  if q = "" then ([], s, ⟨false, false, false⟩)
  else
    let baseTokens := jsSplitSpace (strLower q)
    let topics : List String :=
      match llmTopics with
      | some ts => setAddAll [] (ts ++ baseTokens)
      | none => setAddAll [] baseTokens
    let feedsAndState :=
      if jsTruthyOpt feedFilter then queryFeeds s now (feedFilter.getD "") none none
      else getFeeds s now none none
    let feeds := feedsAndState.1
    let s2 := feeds.foldl (fun st feed => (getItemsFromFeed st feed.id none none none).2)
      feedsAndState.2
    let queryFeedsId := feeds.map (fun f => f.id)
    let matchedItems := s2.cachedItems.foldl
      (fun acc p =>
        if queryFeedsId.contains p.1 then
          acc ++ p.2.filter (fun item =>
            (item.topics.getD []).any (fun t => topics.contains t) ||
            topics.any (fun t => jsIncludes item.title t))
        else acc) []
    (jsPaginate matchedItems skip top, s2, ⟨true, true, true⟩)

/-- generateSummary (lines 327-369) around the LLM call: llm yields the parsed
JSON {summary, topics} or none for any network/parse/shape failure; an empty
summary string fails validation; topics are lowercased. -/
def generateSummaryModel (llm : String → List String → Option (String × List String))
    (text : String) (topics : List String) : Option (String × List String) :=
  match llm text topics with
  | some (sum, tops) => if sum = "" then none else some (sum, tops.map strLower)
  | none => none

/-- The per-item mutation in the refreshFeed summarization loop. -/
def applySummary (item : FeedItem) (res : Option (String × List String)) : FeedItem :=
  match res with
  | some (sum, tops) => { item with summary := some sum, topics := some tops }
  | none => item

/-- The sequential summarization loop of refreshFeed (lines 297-305): one
completion per item, threading the accumulated per-feed topic vocabulary. -/
def summarizeAll (gen : String → List String → Option (String × List String))
    (topics : List String) : List FeedItem → List FeedItem × List String
  | [] => ([], topics)
  | i :: is =>
    let text := i.title ++ "\n" ++ (if i.content = "" then i.description else i.content)
    let res := gen text topics
    let topics1 :=
      match res with
      | some (_, tops) => setAddAll topics tops
      | none => topics
    let rest := summarizeAll gen topics1 is
    (applySummary i res :: rest.1, rest.2)

/-- In-place mutation of the retry items inside the currentFeedItems array:
substitute the processed versions positionally for the summary-less entries. -/
def replaceRetry : List FeedItem → List FeedItem → List FeedItem
  | [], _ => []
  | i :: is, rs =>
    if i.summary.getD "" = "" then
      match rs with
      | r :: rs2 => r :: replaceRetry is rs2
      | [] => i :: replaceRetry is []
    else i :: replaceRetry is rs

/-- The outcome of refreshFeed, with the intermediates the specification
speaks about: the feed object used (after the in-place fetch update) and the
merged pre-refresh item list currentFeedItems. -/
structure RefreshOut where
  newItems : List FeedItem
  state : ManagerState
  feedUsed : Option Feed
  currentItems : List FeedItem
deriving Repr

/-- refreshFeed (lines 267-325).  fetched = none models fetchItemsAndUpdateFeed
throwing (timeout, HTTP error, XML parse failure): the error is caught and an
empty list returned.  On success the feed object (aliased in the feed cache) is
updated in place, the current items are loaded through getItemsFromFeed, new
items (identity key not present) and retry items (no summary) are summarized
sequentially, written to the items table, items of the pre-refresh list older
than the retention window are deleted, and the feed is persisted.  The decoded
view of the store has no chunk-size limit; an oversized entity would make the
real writeObjects throw out of refreshFeed (see the worker cycle claims). -/
def refreshFeed (s : ManagerState) (now : Int) (id : String)
    (fetched : Option (ChannelRaw × Option (List (Option RawItem))))
    (nhm : String → String) (mkId : Nat → String)
    (mdLinks : String → List (String × Option String × String))
    (llm : String → List String → Option (String × List String))
    (retentionDays : Int) : RefreshOut :=
  match getFeed s id with
  | (none, s1) => ⟨[], s1, none, []⟩
  | (some feed, s1) =>
    match fetched with
    | none => ⟨[], s1, some feed, []⟩
    | some (chan, raws) =>
      let fetchRes := fetchItemsAndUpdateFeed feed chan raws nhm mkId mdLinks now
      let feed2 := fetchRes.1
      let items := fetchRes.2
      let s2 := { s1 with cachedFeeds := cacheFeedPut s1.cachedFeeds feed2 }
      let curRes := getItemsFromFeed s2 feed2.id none none none
      let currentFeedItems := curRes.1
      let s3 := curRes.2
      let existingItemKeys := currentFeedItems.map itemKey
      let newItems := items.filter (fun i => !(existingItemKeys.contains (itemKey i)))
      let retryItems := currentFeedItems.filter (fun i => i.summary.getD "" == "")
      let topics0 := currentFeedItems.foldl (fun acc i => setAddAll acc (i.topics.getD [])) []
      let processingItems := newItems ++ retryItems
      let afterWrite : ManagerState × List FeedItem :=
        if processingItems.length > 0 then
          let processed := (summarizeAll (generateSummaryModel llm) topics0 processingItems).1
          let newProcessed := processed.take newItems.length
          let retryProcessed := processed.drop newItems.length
          let updatedItems := sortDesc (replaceRetry currentFeedItems retryProcessed ++ newProcessed)
          ({ s3 with
             cachedItems := setItems s3.cachedItems feed2.id updatedItems,
             itemStore := processed.foldl
               (fun t i => storeUpsert t feed2.id i.id i) s3.itemStore },
           newProcessed)
        else (s3, newItems)
      let expiredTime := now - retentionDays * 24 * 60 * 60 * 1000
      let s5 :=
        if retentionDays ≠ 0 then
          let keysToDelete := (currentFeedItems.filter
            (fun i => decide (i.publishedTime ≤ expiredTime))).map (fun i => i.id)
          { afterWrite.1 with
            itemStore := storeDeleteKeys afterWrite.1.itemStore feed2.id keysToDelete }
        else afterWrite.1
      ⟨afterWrite.2,
       { s5 with feedStore := storeUpsert s5.feedStore FEED_PARTITION feed2.id feed2 },
       some feed2, currentFeedItems⟩

/-! ## Worker cycle (simply-feed-worker.ts)

processor (lines 13-30) wraps ONE try/catch around the whole for-loop over the
configured feeds.  The body of one iteration (getFeedFromUrl, then addFeed or
refreshFeed) is a parameter: it returns .error when that iteration throws an
exception the manager does not catch (for example a storage failure or the
chunk-capacity throw of createTableEntity reached through writeObjects inside
addFeed / refreshFeed; refreshFeed catches only the fetch).  The catch logs
and returns, so an error ends the cycle without crashing the worker. -/

structure WorkerConfig where
  feedUrl : String
deriving DecidableEq, Repr

def processorCycle {σ : Type} (body : WorkerConfig → σ → Except String σ) :
    List WorkerConfig → σ → σ
  | [], st => st
  | c :: cs, st =>
    match body c st with
    | .ok st2 => processorCycle body cs st2
    | .error _ => st

/-- Claim C3 counterexample: with two configured feeds where processing the
first throws, the same body that processes "good" on its own (second
conjunct) never runs for it in the failing cycle (first conjunct): the
remaining feeds of the cycle are NOT processed, so the failure is not caught
per feed. -/
theorem worker_cycle_counterexample :
    processorCycle
      (fun c s => if c.feedUrl = "bad" then .error "boom" else .ok (s ++ [c.feedUrl]))
      [⟨"bad"⟩, ⟨"good"⟩] ([] : List String) = [] ∧
    processorCycle
      (fun c s => if c.feedUrl = "bad" then .error "boom" else .ok (s ++ [c.feedUrl]))
      [⟨"good"⟩] ([] : List String) = ["good"] := by
  decide

/-- Claim C3, amended: a failure raised while processing one feed is caught at
cycle level, not per feed: the erroring iteration ends the cycle with the
remaining feeds unprocessed, but processorCycle still returns (the worker
process and later cycles continue); successful iterations proceed
sequentially; and a mere fetch failure inside refreshFeed is isolated per feed
(refreshFeed returns an empty new-items list with the item and feed tables
untouched, raising nothing). -/
theorem worker_cycle_failure_handling :
    (∀ (σ : Type) (body : WorkerConfig → σ → Except String σ) (c : WorkerConfig)
        (cs : List WorkerConfig) (st : σ) (e : String),
      body c st = .error e → processorCycle body (c :: cs) st = st) ∧
    (∀ (σ : Type) (body : WorkerConfig → σ → Except String σ) (c : WorkerConfig)
        (cs : List WorkerConfig) (st st2 : σ),
      body c st = .ok st2 → processorCycle body (c :: cs) st = processorCycle body cs st2) ∧
    (∀ (s : ManagerState) (now : Int) (id : String) (nhm : String → String)
        (mkId : Nat → String) (mdLinks : String → List (String × Option String × String))
        (llm : String → List String → Option (String × List String)) (rd : Int),
      (refreshFeed s now id none nhm mkId mdLinks llm rd).newItems = [] ∧
      (refreshFeed s now id none nhm mkId mdLinks llm rd).state.itemStore = s.itemStore ∧
      (refreshFeed s now id none nhm mkId mdLinks llm rd).state.feedStore = s.feedStore) := by
  refine ⟨?_, ?_, ?_⟩
  · intro σ body c cs st e h
    rw [processorCycle, h]
  · intro σ body c cs st st2 h
    rw [processorCycle, h]
  · intro s now id nhm mkId mdLinks llm rd
    unfold refreshFeed
    rcases hg : getFeed s id with ⟨fo, s1⟩
    have hpre : s1.itemStore = s.itemStore ∧ s1.feedStore = s.feedStore := by
      unfold getFeed at hg
      rcases hf : s.cachedFeeds.find? (fun f => f.id == id) with _ | f
      · rw [hf] at hg
        rcases hsg : storeGet s.feedStore FEED_PARTITION id with _ | f
        · rw [hsg] at hg
          cases hg
          exact ⟨rfl, rfl⟩
        · rw [hsg] at hg
          cases hg
          exact ⟨rfl, rfl⟩
      · rw [hf] at hg
        cases hg
        exact ⟨rfl, rfl⟩
    cases fo with
    | none => exact ⟨rfl, hpre.1, hpre.2⟩
    | some feed => exact ⟨rfl, hpre.1, hpre.2⟩

/-- Witness for the amended C3 theorem: a failing first feed ends the cycle
with the state unchanged and the call returning normally. -/
theorem worker_cycle_failure_handling_witness :
    processorCycle
      (fun c (s : List String) => if c.feedUrl = "x" then .error "b" else .ok (s ++ [c.feedUrl]))
      [⟨"x"⟩, ⟨"y"⟩] ([] : List String) = [] :=
  worker_cycle_failure_handling.1 (List String)
    (fun c s => if c.feedUrl = "x" then .error "b" else .ok (s ++ [c.feedUrl]))
    ⟨"x"⟩ [⟨"y"⟩] [] "b" (by rfl)

/-! ### Claims C9 and C10 -/

/-- An empty initial manager state. -/
def mgrEmpty : ManagerState :=
  { cachedFeeds := [], cachedItems := [], cachedFeedsTimestamp := 0,
    feedStore := [], itemStore := [] }

theorem getFeed_none_of_missing (s : ManagerState) (id : String)
    (hcache : ∀ f ∈ s.cachedFeeds, f.id ≠ id)
    (hpart : ∀ r ∈ s.feedStore, r.1 = FEED_PARTITION)
    (hkey : ∀ r ∈ s.feedStore, r.2.1 ≠ id) :
    getFeed s id = (none, s) := by
  have hfind : s.cachedFeeds.find? (fun f => f.id == id) = none := by
    apply List.find?_eq_none.mpr
    intro f hf
    simpa using hcache f hf
  have hsg : storeGet s.feedStore FEED_PARTITION id = none := by
    unfold storeGet
    rw [List.find?_eq_none.mpr ?hnone]
    · rfl
    case hnone =>
      intro r hr
      simp only [Bool.and_eq_true, beq_iff_eq, not_and]
      intro hr1 hr2
      have h1 := hpart r hr
      have h2 := hkey r hr
      rw [hr1] at h1
      rw [← h1] at hr2
      exact h2 hr2
  unfold getFeed
  rw [hfind, hsg]

/-- Claim C9: when no feed with the given id exists in the feed cache or in
the feeds table (whose rows all live in the fixed "default" partition),
getItemsFromFeed returns the empty list with the state unchanged and does not
throw, while getItem returns the not-found error "Invalid Feed ID.". -/
theorem missing_feed_empty_items_vs_getItem_error (s : ManagerState) (id itemId : String)
    (top skip : Option Nat) (since : Option Int)
    (hcache : ∀ f ∈ s.cachedFeeds, f.id ≠ id)
    (hpart : ∀ r ∈ s.feedStore, r.1 = FEED_PARTITION)
    (hkey : ∀ r ∈ s.feedStore, r.2.1 ≠ id) :
    getItemsFromFeed s id top skip since = ([], s) ∧
    (getItem s id itemId).1 = .error "Invalid Feed ID." := by
  have hgf := getFeed_none_of_missing s id hcache hpart hkey
  constructor
  · unfold getItemsFromFeed
    rw [hgf]
  · unfold getItem
    rw [hgf]

theorem missing_feed_empty_items_vs_getItem_error_witness :
    getItemsFromFeed mgrEmpty "nope" none none none = ([], mgrEmpty) ∧
    (getItem mgrEmpty "nope" "item").1 = .error "Invalid Feed ID." :=
  missing_feed_empty_items_vs_getItem_error mgrEmpty "nope" "item" none none none
    (fun f hf => absurd hf (List.not_mem_nil f))
    (fun r hr => absurd hr (List.not_mem_nil r))
    (fun r hr => absurd hr (List.not_mem_nil r))

/-- Claim C10: a query that is empty or whitespace-only after trimming makes
queryItems return the empty list at once, with the state unchanged and without
touching the LLM, the feed list, or the item caches (all effect flags false). -/
theorem blank_query_items_no_effects (s : ManagerState) (now : Int)
    (llmTopics : Option (List String)) (query : String) (feedFilter : Option String)
    (top skip : Option Nat) (h : jsTrim query = "") :
    queryItems s now llmTopics query feedFilter top skip =
      ([], s, ⟨false, false, false⟩) := by
  unfold queryItems
  rw [h]
  simp

theorem blank_query_items_no_effects_witness :
    queryItems mgrEmpty 0 none "  " none none none = ([], mgrEmpty, ⟨false, false, false⟩) :=
  blank_query_items_no_effects mgrEmpty 0 none "  " none none none (by decide)

/-! ### Claim C8 -/

def c8feed : Feed := { id := "1", title := "a", feedUrl := "u" }

def c8state : ManagerState :=
  { cachedFeeds := [c8feed], cachedItems := [], cachedFeedsTimestamp := 0,
    feedStore := [], itemStore := [] }

/-- Claim C8 counterexample: for the query "a" ++ tab ++ "b", splitting on
whitespace yields the token "a", which the feed title "a" contains, so the
claim says the feed is returned; queryFeeds splits on the space character
only, keeps the single token "a\tb", and returns no feed. -/
theorem queryFeeds_whitespace_counterexample :
    (queryFeeds c8state 0 "a\tb" none none).1 = [] ∧
    c8feed ∈ (getFeeds c8state 0 none none).1 ∧
    ∃ t ∈ whitespaceTokens "a\tb", t.data <:+: c8feed.title.data := by
  refine ⟨by decide, by decide, ⟨"a", by decide, List.infix_refl _⟩⟩

/-- Claim C8, amended: queryFeeds splits the query on the SPACE character
(U+0020) only, trims each fragment and drops empty ones, keeps exactly the
feeds (from getFeeds) whose title contains at least one resulting token as a
case-sensitive substring, and only then applies skip/top pagination. -/
theorem queryFeeds_space_split_spec (s : ManagerState) (now : Int) (query : String)
    (top skip : Option Nat) :
    (queryFeeds s now query top skip).1 =
      jsPaginate
        ((getFeeds s now none none).1.filter
          (fun f => (((jsSplitSpace query).map jsTrim).filter (fun q => q ≠ "")).any
            (fun q => jsIncludes f.title q)))
        skip top ∧
    ∀ (f : Feed),
      ((((jsSplitSpace query).map jsTrim).filter (fun q => q ≠ "")).any
        (fun q => jsIncludes f.title q)) = true ↔
      ∃ t, t ∈ ((jsSplitSpace query).map jsTrim).filter (fun q => q ≠ "") ∧
        t.data <:+: f.title.data := by
  constructor
  · unfold queryFeeds
    rcases hg : getFeeds s now none none with ⟨feeds, s1⟩
    rfl
  · intro f
    rw [List.any_eq_true]
    constructor
    · rintro ⟨q, hq, hinc⟩
      exact ⟨q, hq, (jsIncludes_iff_substring _ _).mp hinc⟩
    · rintro ⟨q, hq, hinf⟩
      exact ⟨q, hq, (jsIncludes_iff_substring _ _).mpr hinf⟩

/-! ### Claim C5 -/

/-- Sorted by publishedTime in descending order. -/
def ItemsSortedDesc (l : List FeedItem) : Prop :=
  List.Sorted (fun a b => b.publishedTime ≤ a.publishedTime) l

/-- Every per-feed item cache entry is sorted descending: the invariant every
cache write of the manager maintains (see loadItems_sorted and
refreshFeed_cache_sorted). -/
def CacheListSorted (c : List (String × List FeedItem)) : Prop :=
  ∀ p ∈ c, ItemsSortedDesc p.2

theorem mem_insertDesc (x a : FeedItem) (l : List FeedItem) :
    a ∈ insertDesc x l ↔ a = x ∨ a ∈ l := by
  induction l with
  | nil => simp [insertDesc]
  | cons y ys ih =>
    unfold insertDesc
    by_cases h : y.publishedTime ≤ x.publishedTime
    · rw [if_pos h]
      simp [List.mem_cons]
    · rw [if_neg h]
      simp only [List.mem_cons, ih]
      tauto

theorem insertDesc_sorted (x : FeedItem) (l : List FeedItem) (h : ItemsSortedDesc l) :
    ItemsSortedDesc (insertDesc x l) := by
  induction l with
  | nil => simp [insertDesc, ItemsSortedDesc]
  | cons y ys ih =>
    rw [ItemsSortedDesc, List.sorted_cons] at h
    unfold insertDesc
    by_cases hc : y.publishedTime ≤ x.publishedTime
    · rw [if_pos hc]
      rw [ItemsSortedDesc, List.sorted_cons]
      refine ⟨?_, List.sorted_cons.mpr ⟨h.1, h.2⟩⟩
      intro b hb
      rcases List.mem_cons.mp hb with rfl | hb2
      · exact hc
      · exact le_trans (h.1 b hb2) hc
    · rw [if_neg hc]
      rw [ItemsSortedDesc, List.sorted_cons]
      constructor
      · intro b hb
        rcases (mem_insertDesc x b ys).mp hb with rfl | hb2
        · exact le_of_not_le hc
        · exact h.1 b hb2
      · exact ih h.2

theorem sortDesc_sorted (l : List FeedItem) : ItemsSortedDesc (sortDesc l) := by
  unfold sortDesc
  induction l with
  | nil => simp [ItemsSortedDesc]
  | cons x xs ih => exact insertDesc_sorted x _ ih

theorem mem_sortDesc (l : List FeedItem) (a : FeedItem) : a ∈ sortDesc l ↔ a ∈ l := by
  unfold sortDesc
  induction l with
  | nil => simp
  | cons x xs ih =>
    rw [List.foldr_cons, mem_insertDesc, ih, List.mem_cons]

theorem sorted_of_sublist {l1 l2 : List FeedItem} (hs : l1.Sublist l2)
    (h : ItemsSortedDesc l2) : ItemsSortedDesc l1 :=
  List.Pairwise.sublist hs h

theorem jsPaginate_sublist {α : Type} (l : List α) (skip top : Option Nat) :
    (jsPaginate l skip top).Sublist l := by
  unfold jsPaginate
  cases top with
  | none => exact List.drop_sublist _ _
  | some t =>
    dsimp only
    by_cases ht : t = 0
    · rw [if_pos ht]
      exact List.drop_sublist _ _
    · rw [if_neg ht]
      exact (List.take_sublist _ _).trans (List.drop_sublist _ _)

theorem sinceFilter_sorted (cur : List FeedItem) (o : Option Int)
    (h : ItemsSortedDesc cur) : ItemsSortedDesc (sinceFilter cur o) := by
  unfold sinceFilter
  cases o with
  | none => exact h
  | some t =>
    dsimp only
    by_cases ht : t ≠ 0
    · rw [if_pos ht]
      exact List.Pairwise.filter _ h
    · rw [if_neg ht]
      exact h

theorem lookupItems_sorted (c : List (String × List FeedItem)) (fid : String)
    (l : List FeedItem) (hc : CacheListSorted c) (h : lookupItems c fid = some l) :
    ItemsSortedDesc l := by
  unfold lookupItems at h
  cases hf : c.find? (fun p => p.1 == fid) with
  | none =>
    rw [hf] at h
    exact Option.noConfusion h
  | some p =>
    rw [hf, Option.map_some'] at h
    obtain rfl := Option.some.inj h
    exact hc p (List.mem_of_find?_eq_some hf)

theorem setItems_sorted (c : List (String × List FeedItem)) (fid : String)
    (l : List FeedItem) (hc : CacheListSorted c) (hl : ItemsSortedDesc l) :
    CacheListSorted (setItems c fid l) := by
  intro q hq
  unfold setItems at hq
  split at hq
  · rw [List.mem_map] at hq
    obtain ⟨p, hp, hpe⟩ := hq
    by_cases hpf : (p.1 == fid) = true
    · rw [if_pos hpf] at hpe
      rw [← hpe]
      exact hl
    · rw [if_neg hpf] at hpe
      rw [← hpe]
      exact hc p hp
  · rw [List.mem_append] at hq
    rcases hq with hq | hq
    · exact hc q hq
    · rw [List.mem_singleton] at hq
      rw [hq]
      exact hl

theorem getFeed_cachedItems (s : ManagerState) (id : String) :
    (getFeed s id).2.cachedItems = s.cachedItems ∧
    (getFeed s id).2.itemStore = s.itemStore := by
  unfold getFeed
  cases s.cachedFeeds.find? (fun f => f.id == id) with
  | some f => exact ⟨rfl, rfl⟩
  | none =>
    cases storeGet s.feedStore FEED_PARTITION id with
    | some f => exact ⟨rfl, rfl⟩
    | none => exact ⟨rfl, rfl⟩

theorem getFeeds_cachedItems (s : ManagerState) (now : Int) (top skip : Option Nat) :
    (getFeeds s now top skip).2.cachedItems = s.cachedItems := by
  unfold getFeeds
  split
  · rfl
  · rfl

theorem loadItems_sorted (s1 : ManagerState) (feed : Feed)
    (hs : CacheListSorted s1.cachedItems) :
    ItemsSortedDesc (loadItems s1 feed).1 ∧
    CacheListSorted (loadItems s1 feed).2.cachedItems := by
  unfold loadItems
  by_cases hstale : staleOf (lookupItems s1.cachedItems feed.id) feed = true
  · rw [if_pos hstale]
    cases hc0 : lookupItems s1.cachedItems feed.id with
    | none =>
      exact ⟨sortDesc_sorted _, setItems_sorted _ _ _ hs (sortDesc_sorted _)⟩
    | some cl =>
      cases cl with
      | nil =>
        exact ⟨sortDesc_sorted _, setItems_sorted _ _ _ hs (sortDesc_sorted _)⟩
      | cons c cs =>
        exact ⟨sortDesc_sorted _, setItems_sorted _ _ _ hs (sortDesc_sorted _)⟩
  · rw [if_neg hstale]
    cases hc0 : lookupItems s1.cachedItems feed.id with
    | none => exact ⟨by simp [ItemsSortedDesc], hs⟩
    | some cl => exact ⟨lookupItems_sorted _ _ _ hs hc0, hs⟩

theorem getItemsFromFeed_sorted (s : ManagerState) (id : String) (top skip : Option Nat)
    (since : Option Int) (hs : CacheListSorted s.cachedItems) :
    ItemsSortedDesc (getItemsFromFeed s id top skip since).1 ∧
    CacheListSorted (getItemsFromFeed s id top skip since).2.cachedItems := by
  unfold getItemsFromFeed
  rcases hg : getFeed s id with ⟨fo, s1⟩
  have hseq : s1.cachedItems = s.cachedItems := by
    have h := (getFeed_cachedItems s id).1
    rw [hg] at h
    exact h
  have hs1 : CacheListSorted s1.cachedItems := by
    rw [hseq]
    exact hs
  cases fo with
  | none => exact ⟨by simp [ItemsSortedDesc], hs1⟩
  | some feed =>
    have hload := loadItems_sorted s1 feed hs1
    exact ⟨sorted_of_sublist (jsPaginate_sublist _ _ _)
      (sinceFilter_sorted _ _ hload.1), hload.2⟩

theorem recentFold_cache_sorted (cutOff : Int) :
    ∀ (feeds : List Feed) (acc : List FeedItem × ManagerState),
      CacheListSorted acc.2.cachedItems →
      CacheListSorted ((feeds.foldl
        (fun (a : List FeedItem × ManagerState) feed =>
          let r := getItemsFromFeed a.2 feed.id none none (some cutOff)
          (a.1 ++ r.1, r.2)) acc).2.cachedItems) := by
  intro feeds
  induction feeds with
  | nil =>
    intro acc h
    exact h
  | cons f fs ih =>
    intro acc h
    rw [List.foldl_cons]
    exact ih _ ((getItemsFromFeed_sorted acc.2 f.id none none (some cutOff) h).2)

theorem getRecentItems_sorted (s : ManagerState) (now recency : Int)
    (top skip : Option Nat) (hs : CacheListSorted s.cachedItems) :
    ItemsSortedDesc (getRecentItems s now recency top skip).1 ∧
    CacheListSorted (getRecentItems s now recency top skip).2.cachedItems := by
  unfold getRecentItems
  rcases hg : getFeeds s now none none with ⟨feeds, s1⟩
  have hs1 : CacheListSorted s1.cachedItems := by
    have h := getFeeds_cachedItems s now none none
    rw [hg] at h
    rw [h]
    exact hs
  exact ⟨sorted_of_sublist (jsPaginate_sublist _ _ _) (sortDesc_sorted _),
         recentFold_cache_sorted _ feeds ([], s1) hs1⟩

/-- Claim C5: under the cache invariant that every per-feed item cache entry is
sorted by publishedTime descending (established by every cache write: loadItems
always stores a sortDesc result and refreshFeed stores a sortDesc result, see
refreshFeed_cache_sorted), every getItemsFromFeed and getRecentItems result,
for any pagination arguments and since filter, is sorted by publishedTime in
descending order; both calls also preserve the invariant. -/
theorem items_results_sorted (s : ManagerState) (id : String) (top skip : Option Nat)
    (since : Option Int) (now recency : Int)
    (hs : CacheListSorted s.cachedItems) :
    (ItemsSortedDesc (getItemsFromFeed s id top skip since).1 ∧
      CacheListSorted (getItemsFromFeed s id top skip since).2.cachedItems) ∧
    (ItemsSortedDesc (getRecentItems s now recency top skip).1 ∧
      CacheListSorted (getRecentItems s now recency top skip).2.cachedItems) :=
  ⟨getItemsFromFeed_sorted s id top skip since hs,
   getRecentItems_sorted s now recency top skip hs⟩

theorem items_results_sorted_witness :
    (ItemsSortedDesc (getItemsFromFeed mgrEmpty "x" none none none).1 ∧
      CacheListSorted (getItemsFromFeed mgrEmpty "x" none none none).2.cachedItems) ∧
    (ItemsSortedDesc (getRecentItems mgrEmpty 0 60 none none).1 ∧
      CacheListSorted (getRecentItems mgrEmpty 0 60 none none).2.cachedItems) :=
  items_results_sorted mgrEmpty "x" none none none 0 60
    (fun p hp => absurd hp (List.not_mem_nil p))

theorem refreshFeed_cache_sorted (s : ManagerState) (now : Int) (id : String)
    (fetched : Option (ChannelRaw × Option (List (Option RawItem))))
    (nhm : String → String) (mkId : Nat → String)
    (mdLinks : String → List (String × Option String × String))
    (llm : String → List String → Option (String × List String)) (rd : Int)
    (hs : CacheListSorted s.cachedItems) :
    CacheListSorted (refreshFeed s now id fetched nhm mkId mdLinks llm rd).state.cachedItems := by
  unfold refreshFeed
  rcases hg : getFeed s id with ⟨fo, s1⟩
  have hs1 : CacheListSorted s1.cachedItems := by
    have h := (getFeed_cachedItems s id).1
    rw [hg] at h
    rw [h]
    exact hs
  cases fo with
  | none => exact hs1
  | some feed =>
    cases fetched with
    | none => exact hs1
    | some cr =>
      rcases cr with ⟨chan, raws⟩
      dsimp only
      have hs3 := (getItemsFromFeed_sorted
        { s1 with
          cachedFeeds :=
            (cacheFeedPut s1.cachedFeeds
              (fetchItemsAndUpdateFeed feed chan raws nhm mkId mdLinks now).1) }
        (fetchItemsAndUpdateFeed feed chan raws nhm mkId mdLinks now).1.id
        none none none hs1).2
      split
      · split
        · exact setItems_sorted _ _ _ hs3 (sortDesc_sorted _)
        · exact hs3
      · split
        · exact setItems_sorted _ _ _ hs3 (sortDesc_sorted _)
        · exact hs3

/-! ### Claim C2 -/

theorem storeGet_deleteKeys {α : Type} (st : DataTable α) (p : String)
    (keys : List String) (k : String) (hk : k ∈ keys) :
    storeGet (storeDeleteKeys st p keys) k p = none := by
  unfold storeGet storeDeleteKeys
  rw [List.find?_eq_none.mpr]
  · rfl
  intro r hr
  rw [List.mem_filter] at hr
  intro hcontra
  simp only [Bool.and_eq_true, beq_iff_eq] at hcontra
  have h2 := hr.2
  simp [hcontra.1, hcontra.2] at h2
  exact h2 hk

def c2feed : Feed := { id := "f1", feedUrl := "u" }

def c2raw : RawItem := { linkHref := some "L", encodedText := some "c", publishedTime := 1 }

def c2state : ManagerState :=
  { cachedFeeds := [c2feed], cachedItems := [], cachedFeedsTimestamp := 0,
    feedStore := [(FEED_PARTITION, "f1", c2feed)], itemStore := [] }

def c2now : Int := 1000000000000

/-- Claim C2 counterexample: refreshing a feed whose fetch returns one item
with publishedTime 1 (far older than now minus the default 5-day window)
completes with that item persisted in the items table: the retention sweep
only deletes items that were in the pre-refresh merged list, so a stored item
for the feed is older than now minus 5 days after refreshFeed completes. -/
theorem refresh_retention_counterexample :
    ∃ r ∈ (refreshFeed c2state c2now "f1" (some ({}, some [some c2raw]))
        (fun s => s) (fun _ => "i0") (fun _ => []) (fun _ _ => none)
        DEFAULT_RETENTION_DAYS).state.itemStore,
      r.1 = "f1" ∧
      r.2.2.publishedTime < c2now - DEFAULT_RETENTION_DAYS * 24 * 60 * 60 * 1000 := by
  decide

/-- Claim C2, amended: after refreshFeed completes with a nonzero retention
window (default 5 days), every item of the pre-refresh merged item list
(currentFeedItems) whose publishedTime is at most now minus the window is
deleted from the items table; items newly fetched during the same refresh are
persisted regardless of their publishedTime and are only evicted by a later
refresh (see the counterexample). -/
theorem refresh_retention_amended (s : ManagerState) (now : Int) (id : String)
    (fetched : Option (ChannelRaw × Option (List (Option RawItem))))
    (nhm : String → String) (mkId : Nat → String)
    (mdLinks : String → List (String × Option String × String))
    (llm : String → List String → Option (String × List String)) (rd : Int)
    (hrd : rd ≠ 0) :
    ∀ i ∈ (refreshFeed s now id fetched nhm mkId mdLinks llm rd).currentItems,
      i.publishedTime ≤ now - rd * 24 * 60 * 60 * 1000 →
      ∀ f, (refreshFeed s now id fetched nhm mkId mdLinks llm rd).feedUsed = some f →
        storeGet (refreshFeed s now id fetched nhm mkId mdLinks llm rd).state.itemStore
          i.id f.id = none := by
  unfold refreshFeed
  rcases hg : getFeed s id with ⟨fo, s1⟩
  cases fo with
  | none =>
    intro i hi
    exact absurd hi (List.not_mem_nil i)
  | some feed =>
    cases fetched with
    | none =>
      intro i hi
      exact absurd hi (List.not_mem_nil i)
    | some cr =>
      rcases cr with ⟨chan, raws⟩
      dsimp only
      intro i hi hold f hf
      obtain rfl := Option.some.inj hf
      rw [if_pos hrd]
      exact storeGet_deleteKeys _ _ _ _
        (List.mem_map.mpr ⟨i, List.mem_filter.mpr ⟨hi, by simpa using hold⟩, rfl⟩)

def c2witFeed : Feed := { id := "f2", feedUrl := "u2" }

def c2witItem : FeedItem := { id := "y", feedId := "f2", link := "LY", publishedTime := 1 }

def c2witState : ManagerState :=
  { cachedFeeds := [c2witFeed], cachedItems := [], cachedFeedsTimestamp := 0,
    feedStore := [(FEED_PARTITION, "f2", c2witFeed)], itemStore := [("f2", "y", c2witItem)] }

/-- The feed object as refreshFeed mutates it for the witness run: channel
fields defaulted, timestamps unchanged, lastUpdateTime stamped. -/
def c2witFeed2 : Feed :=
  { id := "f2", title := "Untitled Feed", subtitle := "", description := "",
    feedUrl := "u2", lastUpdateTime := c2now }

theorem refresh_retention_amended_witness :
    c2witItem.publishedTime ≤ c2now - 5 * 24 * 60 * 60 * 1000 ∧
    storeGet (refreshFeed c2witState c2now "f2" (some ({}, none))
        (fun s => s) (fun _ => "i") (fun _ => []) (fun _ _ => none) 5).state.itemStore
      c2witItem.id c2witFeed2.id = none :=
  ⟨by decide,
   refresh_retention_amended c2witState c2now "f2" (some ({}, none))
     (fun s => s) (fun _ => "i") (fun _ => []) (fun _ _ => none) 5 (by decide)
     c2witItem (by decide) (by decide) c2witFeed2 (by decide)⟩
